import Mathlib

/-!
Shallow embedding of the S-C lexer (sc_lexer.c / sc_token.h) and proofs about it.

The source buffer is modelled as a `List Char` holding the bytes read from the
file; the terminating NUL written by `lexFile` sits one past the end of the
list, so reading at or beyond `s.length` yields the NUL character.  Cursors
(`char* bp`) are modelled as `Nat` offsets into that buffer; `char*` lexeme
pointers inside tokens are modelled as `Option Nat` offsets (`none` = NULL).
C `int` values that can overflow are modelled as `Int` with explicit 32-bit
two's-complement wrapping.

Every loop of the C code is modelled with an explicit iteration bound `fuel`,
returning `none` when the bound is hit, so that all definitions compute by
kernel reduction; a `some` result is an actual finite execution of the C
loop.  This also lets the model express that one of the C loops really can
run forever (see the lone-dot theorems below).
-/

namespace SC

/-- NUL character, the buffer terminator. -/
def nul : Char := Char.ofNat 0

/-- Dereference the buffer at offset `i` (`*(buf + i)`): the byte stored
there, or the terminating NUL once the offset leaves the stored bytes. -/
def peek (s : List Char) (i : Nat) : Char := s.getD i nul

theorem lt_of_peek_ne_nul {s : List Char} {i : Nat} (h : peek s i ≠ nul) :
    i < s.length := by
  by_contra hge
  push_neg at hge
  exact h (by simp [peek, List.getD, List.getElem?_eq_none hge])

/-- C `isdigit` on ASCII input. -/
def isDigitC (c : Char) : Bool := 48 ≤ c.toNat && c.toNat ≤ 57

/-- C `isalpha` on ASCII input. -/
def isAlphaC (c : Char) : Bool :=
  (65 ≤ c.toNat && c.toNat ≤ 90) || (97 ≤ c.toNat && c.toNat ≤ 122)

/-- C `isalnum` on ASCII input. -/
def isAlnumC (c : Char) : Bool := isDigitC c || isAlphaC c

theorem isDigitC_ne_nul {c : Char} (h : isDigitC c = true) : c ≠ nul := by
  intro hc; subst hc; simp [isDigitC, nul] at h

/-- `enum TokenType` from sc_token.h. -/
inductive TokenType where
  | INT_LITERAL
  | FLOAT_LITERAL
  | CHAR_LITERAL
  | STR_LITERAL
  | BOOL_LITERAL
  | IDENTIFIER
  | FUNCTION
  | ARRAY
  | KEYWORD
  | OPERATOR
  | DELIMITER
  | EMPTY
  | END_OF_FILE
deriving DecidableEq, Repr

/-- `struct Token` from sc_token.h.  The `val` field has C type `int` (the
header declares `int val;`), so both the integer and the float scanners end
up storing into a 32-bit integer field; `lexeme` is a pointer into the source
buffer, modelled as an offset.  Designated initializers in the C source leave
unnamed fields zero, which the field defaults reproduce. -/
structure Token where
  val : Int := 0
  type : TokenType
  lexeme : Option Nat := none
  line : Nat := 1
  col : Nat := 0
  length : Nat := 0
deriving DecidableEq, Repr

/-- `validTripleOps` table. -/
def validTripleOps : List (List Char) := [['<', '<', '='], ['>', '>', '=']]

/-- `validDoubleOps` table. -/
def validDoubleOps : List (List Char) :=
  [['=', '='], ['<', '='], ['>', '='], ['!', '='], ['&', '&'], ['|', '|'],
   ['+', '+'], ['-', '-'], ['+', '='], ['-', '='], ['*', '='], ['%', '='],
   ['&', '='], ['|', '='], ['^', '='], ['<', '<'], ['>', '>'], ['-', '>']]

/-- `validSingleOps` array together with its size: the C code takes
`sizeof(validSingleOps)` over a string literal, which counts the terminating
NUL, so `charInArray` is also asked about the NUL byte; the trailing `nul`
entry reproduces that. -/
def validSingleOps : List Char :=
  ['+', '-', '*', '%', '=', '<', '>', '!', '&', '|', '~', '^', '.',
   '(', ')', '{', '}', '[', ']', ';', ',', nul]

/-- `validKeywords` table. -/
def validKeywords : List (List Char) :=
  (["int", "float", "char", "bool", "void", "if", "else", "for", "while",
    "break", "continue", "return", "const", "static", "nullptr", "NULL"]).map
    String.toList

/-- The characters handled by the operator arm of `scanOpDelim`'s switch. -/
def opSwitchChars : List Char :=
  ['+', '-', '*', '%', '=', '<', '>', '!', '&', '|', '^', '~']

/-- The characters handled by the delimiter arm of `scanOpDelim`'s switch. -/
def delimSwitchChars : List Char := ['(', ')', '{', '}', '[', ']', ';', ',']

/-- The substring of the buffer from offset `a` (inclusive) to `b`
(exclusive): the lexeme a `(start, length)` pair designates. -/
def slice (s : List Char) (a b : Nat) : List Char := (s.drop a).take (b - a)

/-- 32-bit two's-complement wrap, modelling overflow of a C `int`. -/
def wrap32 (n : Int) : Int := (n + 2 ^ 31) % 2 ^ 32 - 2 ^ 31

/-- The `tokenValue = tokenValue * 10 + (*cur - '0')` accumulation loop of
`scanIntLiteral`, one wrap per step. -/
def accumDigits (cs : List Char) (v : Int) : Int :=
  match cs with
  | [] => v
  | c :: rest => accumDigits rest (wrap32 (v * 10 + ((c.toNat : Int) - 48)))

/-- Exact (unwrapped) left-to-right base-10 accumulation, used to state what
the wrap-around accumulation computes. -/
def base10From (v : Int) (cs : List Char) : Int :=
  match cs with
  | [] => v
  | c :: rest => base10From (v * 10 + ((c.toNat : Int) - 48)) rest

/-- Base-2 logarithm computed by structural recursion on an iteration bound;
`log2F 64 n` agrees with the usual `Nat.log2 n` for every `n < 2 ^ 64`, which
covers all 32-bit values this development feeds it. -/
def log2F : Nat → Nat → Nat
  | 0, _ => 0
  | f + 1, n => if 2 ≤ n then log2F f (n / 2) + 1 else 0

/-- Round a natural number to the nearest value representable in an IEEE-754
single-precision significand (24 bits), ties to even: the effect of the C
conversion `(float)tokenValue` on a nonnegative in-range integer. -/
def floatRoundNat (n : Nat) : Nat :=
  if n ≤ 2 ^ 24 then n
  else
    let e := log2F 64 n - 23
    let q := n / 2 ^ e
    let r := n % 2 ^ e
    let half := 2 ^ (e - 1)
    let q2 := if half < r ∨ (r = half ∧ q % 2 = 1) then q + 1 else q
    q2 * 2 ^ e

/-- `(float)` conversion of a C `int`, as an integer-valued result
(int-to-float rounding, sign-symmetric).  Storing that float back into the
`int val` field is exact because the value is an integer. -/
def floatRoundInt (z : Int) : Int :=
  if 0 ≤ z then (floatRoundNat z.toNat : Int) else -(floatRoundNat (-z).toNat : Int)

/-- Value of a digit string read in base 10. -/
def digitsVal (cs : List Char) : Nat := cs.foldl (fun a c => a * 10 + (c.toNat - 48)) 0

/-- Modelled parse of `strtof(start, NULL)` on the decimal lexemes this lexer
produces (`digits`, `digits.digits`, `.digits`, with any trailing `f`/`F`
left unconsumed): the pair `(n, k)` such that the exact decimal value read is
`n / 10 ^ k`.  Exponent/hex/inf/nan forms of `strtof` are not modelled (this
lexer never isolates them). -/
def strtofParts (cs : List Char) : Nat × Nat :=
  let ip := cs.takeWhile isDigitC
  let rest := cs.drop ip.length
  match rest with
  | '.' :: r2 =>
    let fp := r2.takeWhile isDigitC
    (digitsVal ip * 10 ^ fp.length + digitsVal fp, fp.length)
  | _ => (digitsVal ip, 0)

/-- The exact value of the float `strtof` returns, as a rational.  Real
`strtof` rounds this value to the nearest `float`; the development only
evaluates it on lexemes whose value is exactly representable, where that
rounding is the identity. -/
def strtofQ (cs : List Char) : ℚ :=
  ((strtofParts cs).1 : ℚ) / (10 : ℚ) ^ (strtofParts cs).2

/-- The value `scanFloatLiteral` stores into the token: the C assignment
`.val = tokenValue` converts the `float` returned by `strtof` to `int`
(truncation toward zero), because `val` is declared `int`; on the
nonnegative decimal forms fed to it here that is the integer part. -/
def strtofToInt (cs : List Char) : Int :=
  (((strtofParts cs).1 / 10 ^ (strtofParts cs).2 : Nat) : Int)

/-- The `while (**bpPtr == ' ')` trailing-space loops of `scanFunction` and
`scanArray`.  Here and in every loop below, `fuel` bounds the number of
iterations the model runs, and `none` reports that the bound was hit; a
`some` result is an actual finite run of the C loop. -/
def skipSpaces (fuel : Nat) (s : List Char) (i col : Nat) : Option (Nat × Nat) :=
  match fuel with
  | 0 => none
  | fuel + 1 =>
    if peek s i = ' ' then skipSpaces fuel s (i + 1) (col + 1) else some (i, col)

/-- The scanning loop shared by `scanCharLiteral` and `scanStrLiteral`:
advance until the closing quote `q`, reporting `false` when the NUL is
reached first.  On a backslash the cursor steps over the escaped character as
well; that second step is not guarded by the NUL check, so it can move the
cursor one past the terminator. -/
def quoteLoop (fuel : Nat) (q : Char) (s : List Char) (i col : Nat) :
    Option (Bool × Nat × Nat) :=
  match fuel with
  | 0 => none
  | fuel + 1 =>
    if peek s i = q then some (true, i, col)
    else if peek s i = nul then some (false, i, col)
    else if peek s i = '\\' then quoteLoop fuel q s (i + 2) (col + 2)
    else quoteLoop fuel q s (i + 1) (col + 1)

/-- The `while (isdigit(**bpPtr) || **bpPtr == '.')` loop of `scanIntLiteral`:
consume digits, reporting `true` on hitting a dot (the hand-off to the float
scanner). -/
def intLoop (fuel : Nat) (s : List Char) (i col : Nat) : Option (Bool × Nat × Nat) :=
  match fuel with
  | 0 => none
  | fuel + 1 =>
    if isDigitC (peek s i) then intLoop fuel s (i + 1) (col + 1)
    else if peek s i = '.' then some (true, i, col)
    else some (false, i, col)

/-- The digit run inside `scanFloatLiteral`.  Only the cursor moves: the
statement `*(colPtr)++` on entry to `scanFloatLiteral` increments the local
pointer instead of the column it points to, so every later `(*colPtr)++` in
that function writes beside the caller's counter and the caller-visible
column is left unchanged. -/
def floatDigits (fuel : Nat) (s : List Char) (i : Nat) : Option Nat :=
  match fuel with
  | 0 => none
  | fuel + 1 =>
    if isDigitC (peek s i) then floatDigits fuel s (i + 1) else some i

/-- The `while (isalnum(**bpPtr) || **bpPtr == '_')` run of `scanIdentifier`. -/
def identRun (fuel : Nat) (s : List Char) (i col : Nat) : Option (Nat × Nat) :=
  match fuel with
  | 0 => none
  | fuel + 1 =>
    if isAlnumC (peek s i) = true ∨ peek s i = '_' then identRun fuel s (i + 1) (col + 1)
    else some (i, col)

/-- The bracket-depth loop of `scanArray`: `false` means the NUL was reached
before the brackets closed.  The closing `]` is consumed before the loop
re-checks the depth. -/
def arrLoop (fuel : Nat) (s : List Char) (i col : Nat) (depth : Nat) :
    Option (Bool × Nat × Nat) :=
  match fuel with
  | 0 => none
  | fuel + 1 =>
    if depth = 0 then some (true, i, col)
    else if peek s i = nul then some (false, i, col)
    else
      arrLoop fuel s (i + 1) (col + 1)
        (if peek s i = '[' then depth + 1 else if peek s i = ']' then depth - 1 else depth)

/-- The `while (*bp && *bp != '\n')` loop skipping a `//` comment. -/
def lineSkip (fuel : Nat) (s : List Char) (i col : Nat) : Option (Nat × Nat) :=
  match fuel with
  | 0 => none
  | fuel + 1 =>
    if peek s i ≠ nul ∧ peek s i ≠ '\n' then lineSkip fuel s (i + 1) (col + 1)
    else some (i, col)

/-- The `while (*bp && *(bp+1) && !(*bp == '*' && *(bp+1) == '/'))` loop of
the block-comment handler; the newline test is applied to the character just
advanced to. -/
def blockSkip (fuel : Nat) (s : List Char) (i col line : Nat) : Option (Nat × Nat × Nat) :=
  match fuel with
  | 0 => none
  | fuel + 1 =>
    if peek s i ≠ nul ∧ peek s (i + 1) ≠ nul ∧ ¬(peek s i = '*' ∧ peek s (i + 1) = '/') then
      if peek s (i + 1) = '\n' then blockSkip fuel s (i + 1) 0 (line + 1)
      else blockSkip fuel s (i + 1) (col + 1) line
    else some (i, col, line)

/-- Outcome of `scanFunction`'s balancing loop: the closing `)` was found (the
cursor stays on it), or the NUL was reached while inside a string/char
literal, or the NUL was reached outside one. -/
inductive FunRes where
  | closed (i col : Nat)
  | eofLit (i col : Nat)
  | eofOut (i col : Nat)
deriving DecidableEq, Repr

/-- The parenthesis-balancing loop of `scanFunction`.  The two toggle tests
mirror the `if`/`else if` pair in the source: the char-literal toggle is only
tried when the string toggle did not fire, and reads the not-yet-updated
`isString`.  While inside a literal run, `(` and `)` do not touch the depth.
When `)` brings the depth to 0 the loop breaks with the cursor on the `)`. -/
def funLoop (fuel : Nat) (s : List Char) (i col : Nat) (depth : Nat) (isStr isChr : Bool) :
    Option FunRes :=
  match fuel with
  | 0 => none
  | fuel + 1 =>
    let isStr2 :=
      if peek s i = '"' ∧ peek s (i - 1) ≠ '\\' ∧ isChr = false then !isStr else isStr
    let isChr2 :=
      if ¬(peek s i = '"' ∧ peek s (i - 1) ≠ '\\' ∧ isChr = false) ∧
          (peek s i = '\'' ∧ peek s (i - 1) ≠ '\\' ∧ isStr = false) then !isChr else isChr
    if isStr2 = true ∨ isChr2 = true then
      if peek s i = nul then some (FunRes.eofLit i col)
      else funLoop fuel s (i + 1) (col + 1) depth isStr2 isChr2
    else if peek s i = nul then some (FunRes.eofOut i col)
    else if peek s i = '(' then funLoop fuel s (i + 1) (col + 1) (depth + 1) isStr2 isChr2
    else if peek s i = ')' then
      if depth - 1 = 0 then some (FunRes.closed i col)
      else funLoop fuel s (i + 1) (col + 1) (depth - 1) isStr2 isChr2
    else funLoop fuel s (i + 1) (col + 1) depth isStr2 isChr2

/-- `scanCharLiteral`: consume the opening quote, advance to the matching
unescaped closing quote; on NUL return the EMPTY token with the cursor where
the loop stopped. -/
def scanCharLiteral (fuel : Nat) (s : List Char) (i col line : Nat) :
    Option (Token × Nat × Nat) :=
  match quoteLoop fuel '\'' s (i + 1) (col + 1) with
  | none => none
  | some (false, j, c) =>
    some ({ type := .EMPTY, line := line, col := col, lexeme := none, length := 0 }, j, c)
  | some (true, j, c) =>
    if i ≠ j + 1 then
      some ({ type := .CHAR_LITERAL, line := line, col := col, lexeme := some i,
              length := j + 1 - i }, j + 1, c + 1)
    else
      some ({ type := .EMPTY, line := line, col := c + 1, lexeme := none, length := 0 },
        j + 1, c + 1)

/-- `scanStrLiteral`: same shape as `scanCharLiteral` with `"` as the quote. -/
def scanStrLiteral (fuel : Nat) (s : List Char) (i col line : Nat) :
    Option (Token × Nat × Nat) :=
  match quoteLoop fuel '"' s (i + 1) (col + 1) with
  | none => none
  | some (false, j, c) =>
    some ({ type := .EMPTY, line := line, col := col, lexeme := none, length := 0 }, j, c)
  | some (true, j, c) =>
    if i ≠ j + 1 then
      some ({ type := .STR_LITERAL, line := line, col := col, lexeme := some i,
              length := j + 1 - i }, j + 1, c + 1)
    else
      some ({ type := .EMPTY, line := line, col := c + 1, lexeme := none, length := 0 },
        j + 1, c + 1)

/-- `scanFloatLiteral`: entered with the cursor on the `.`; consumes it, the
following digits, and an optional `f`/`F` suffix.  The caller-visible column
is unchanged (see `floatDigits`).  `strtof(start, NULL)` reads the buffer
from `start`; `strtofQ` models it on the decimal forms this lexer produces.
The `float` result is stored into the `int`-typed `val` field, truncating
toward zero. -/
def scanFloatLiteral (fuel : Nat) (s : List Char) (start i : Nat) (col startCol line : Nat) :
    Option (Token × Nat × Nat) :=
  match floatDigits fuel s (i + 1) with
  | none => none
  | some i2 =>
    let i3 := if peek s i2 = 'f' ∨ peek s i2 = 'F' then i2 + 1 else i2
    if start ≠ i3 then
      some ({ val := strtofToInt (s.drop start), type := .FLOAT_LITERAL,
              line := line, col := startCol, lexeme := some start, length := i3 - start },
        i3, col)
    else
      some ({ type := .EMPTY, line := line, col := col, lexeme := none, length := 0 },
        i3, col)

/-- `scanIntLiteral`: scan a maximal digit run; a dot hands off to
`scanFloatLiteral`.  The accumulated `int` is cast to `(float)` and stored
back into the `int`-typed `val` field; for an integer-valued float in range
that store is exact, so the stored value is the float rounding of the wrapped
accumulation (when that rounding leaves the `int` range the C conversion is
undefined and the model keeps the mathematical value). -/
def scanIntLiteral (fuel : Nat) (s : List Char) (i col line : Nat) :
    Option (Token × Nat × Nat) :=
  match intLoop fuel s i col with
  | none => none
  | some (true, j, c) => scanFloatLiteral fuel s i j c col line
  | some (false, j, c) =>
    if i ≠ j then
      some ({ val := floatRoundInt (accumDigits (slice s i j) 0), type := .INT_LITERAL,
              line := line, col := col, lexeme := some i, length := j - i }, j, c)
    else
      some ({ type := .EMPTY, line := line, col := c, lexeme := none, length := 0 }, j, c)

/-- `scanOpDelim`: longest-match operator scan for the operator switch cases,
single-char token for the delimiter cases, and for the default case (reached
by `.`, the one `validSingleOps` member absent from the switch) the EMPTY
token with the cursor unmoved. -/
def scanOpDelim (s : List Char) (i col line : Nat) : Token × Nat × Nat :=
  if opSwitchChars.contains (peek s i) then
    if peek s i ≠ nul ∧ peek s (i + 1) ≠ nul ∧ peek s (i + 2) ≠ nul ∧
        validTripleOps.contains [peek s i, peek s (i + 1), peek s (i + 2)] = true then
      ({ type := .OPERATOR, line := line, col := col, lexeme := some i, length := 3 },
        i + 3, col + 3)
    else if peek s i ≠ nul ∧ peek s (i + 1) ≠ nul ∧
        validDoubleOps.contains [peek s i, peek s (i + 1)] = true then
      ({ type := .OPERATOR, line := line, col := col, lexeme := some i, length := 2 },
        i + 2, col + 2)
    else if peek s i ≠ nul then
      ({ type := .OPERATOR, line := line, col := col, lexeme := some i, length := 1 },
        i + 1, col + 1)
    else
      ({ type := .EMPTY, line := line, col := col, lexeme := none, length := 0 }, i, col)
  else if delimSwitchChars.contains (peek s i) then
    ({ type := .DELIMITER, line := line, col := col, lexeme := some i, length := 1 },
      i + 1, col + 1)
  else
    ({ type := .EMPTY, line := line, col := col, lexeme := none, length := 0 }, i, col)

/-- `scanArray`: entered with the cursor on `[`; consumes balanced brackets
and trailing spaces, and recurses on an immediately following `[`. -/
def scanArray (fuel : Nat) (s : List Char) (i : Nat) (start col startCol line : Nat) :
    Option (Token × Nat × Nat) :=
  match fuel with
  | 0 => none
  | fuel + 1 =>
    match arrLoop fuel s (i + 1) (col + 1) 1 with
    | none => none
    | some (false, j, c) =>
      some ({ type := .EMPTY, line := line, col := startCol, lexeme := none, length := 0 },
        j, c)
    | some (true, j, c) =>
      match skipSpaces fuel s j c with
      | none => none
      | some (j2, c2) =>
        if start ≠ j2 then
          if peek s j2 = '[' then scanArray fuel s j2 start c2 startCol line
          else
            some ({ type := .ARRAY, line := line, col := startCol, lexeme := some start,
                    length := j2 - start }, j2, c2)
        else
          some ({ type := .EMPTY, line := line, col := c2, lexeme := none, length := 0 },
            j2, c2)

mutual

/-- `scanForTokens`: one dispatch step.  Returns the tokens this call appends
to the global buffer together with the new cursor and column; `none` is the
model's iteration bound.  The operator branch reproduces the source guard
`opDelimToken.type != END_OF_FILE` verbatim: `scanOpDelim` never returns
END_OF_FILE, so even its EMPTY result is appended and the skip arm is dead
code. -/
def scanForTokens (fuel : Nat) (s : List Char) (i col line : Nat) :
    Option (List Token × Nat × Nat) :=
  match fuel with
  | 0 => none
  | fuel + 1 =>
    if isDigitC (peek s i) then
      match scanIntLiteral fuel s i col line with
      | none => none
      | some r => some (if r.1.lexeme.isSome then [r.1] else [], r.2.1, r.2.2)
    else if peek s i = '.' ∧ peek s (i + 1) ≠ nul ∧ isDigitC (peek s (i + 1)) = true then
      match scanFloatLiteral fuel s i i col col line with
      | none => none
      | some r => some (if r.1.lexeme.isSome then [r.1] else [], r.2.1, r.2.2)
    else if peek s i = '"' then
      match scanStrLiteral fuel s i col line with
      | none => none
      | some r => some (if r.1.lexeme.isSome then [r.1] else [], r.2.1, r.2.2)
    else if peek s i = '\'' then
      match scanCharLiteral fuel s i col line with
      | none => none
      | some r => some (if r.1.lexeme.isSome then [r.1] else [], r.2.1, r.2.2)
    else if isAlphaC (peek s i) = true ∨ peek s i = '_' then
      match scanIdentifier fuel s i col line with
      | none => none
      | some (emitted, tok, j, c) =>
        some (emitted ++ (if tok.lexeme.isSome then [tok] else []), j, c)
    else if validSingleOps.contains (peek s i) then
      let r := scanOpDelim s i col line
      if r.1.type ≠ TokenType.END_OF_FILE then some ([r.1], r.2.1, r.2.2)
      else some ([], r.2.1 + 1, r.2.2 + 1)
    else some ([], i + 1, col + 1)
termination_by structural fuel

/-- `scanIdentifier`: scan an identifier run and classify it, possibly
handing off to `scanArray` or `scanFunction`.  Returns the tokens emitted
during the call (only the function hand-off emits) plus the token the caller
may emit. -/
def scanIdentifier (fuel : Nat) (s : List Char) (i col line : Nat) :
    Option (List Token × Token × Nat × Nat) :=
  match fuel with
  | 0 => none
  | fuel + 1 =>
    match identRun fuel s i col with
    | none => none
    | some (j, c) =>
      if i ≠ j then
        let len := j - i
        let kw := slice s i j
        if peek s j = '[' ∨
            (peek s j = ' ' ∧ peek s (j + 1) ≠ nul ∧ peek s (j + 1) = '[') then
          let q := if peek s j = ' ' then (j + 1, c + 1) else (j, c)
          match scanArray fuel s q.1 i q.2 col line with
          | none => none
          | some (tok, j2, c2) => some ([], tok, j2, c2)
        else if (peek s j = '(' ∨
            (peek s j = ' ' ∧ peek s (j + 1) ≠ nul ∧ peek s (j + 1) = '(')) ∧
            ¬(len ≤ 8 ∧ validKeywords.contains kw = true) then
          let q := if peek s j = ' ' then (j + 1, c + 1) else (j, c)
          scanFunction fuel s q.1 q.2 i col line
        else if len ≤ 8 ∧ (kw = "true".toList ∨ kw = "false".toList) then
          let tok : Token :=
            { type := .BOOL_LITERAL, line := line, col := col, lexeme := some i,
              length := len }
          some ([], tok, j, c)
        else if len ≤ 8 ∧ validKeywords.contains kw = true then
          let tok : Token :=
            { type := .KEYWORD, line := line, col := col, lexeme := some i, length := len }
          some ([], tok, j, c)
        else
          let tok : Token :=
            { type := .IDENTIFIER, line := line, col := col, lexeme := some i,
              length := len }
          some ([], tok, j, c)
      else
        some ([], { type := .EMPTY, line := line, col := c, lexeme := none, length := 0 },
          j, c)
termination_by structural fuel

/-- `scanFunction`: entered with the cursor on `(`.  Emits a DELIMITER token
for the opening paren (note its `col` is the identifier's `startCol`), runs
the literal-aware balancing loop, re-tokenises the argument span, then skips
past the closing paren and trailing spaces. -/
def scanFunction (fuel : Nat) (s : List Char) (i col : Nat) (start startCol line : Nat) :
    Option (List Token × Token × Nat × Nat) :=
  match fuel with
  | 0 => none
  | fuel + 1 =>
    let obTok : Token :=
      { type := .DELIMITER, line := line, col := startCol, lexeme := some i, length := 1 }
    match funLoop fuel s (i + 1) (col + 1) 1 false false with
    | none => none
    | some (FunRes.eofLit j c) =>
      some ([obTok], { type := .EMPTY, line := line, col := c, lexeme := none, length := 0 },
        j, c)
    | some (FunRes.eofOut j c) =>
      some ([obTok],
        { type := .EMPTY, line := line, col := startCol, lexeme := none, length := 0 }, j, c)
    | some (FunRes.closed j c) =>
      let funTok : Token :=
        { type := .FUNCTION, line := line, col := startCol, lexeme := some start,
          length := j + 1 - start }
      match innerScan fuel s (i + 1) (j - 1) c line with
      | none => none
      | some inn =>
        match skipSpaces fuel s (j - 1 + 2) (c + 2) with
        | none => none
        | some (j2, c2) => some (obTok :: inn, funTok, j2, c2)
termination_by structural fuel

/-- The `while (inner <= argsEnd)` re-tokenisation loop of `scanFunction`,
running the dispatcher over the argument span with a throwaway column.  Like
the C loop, it does not terminate when a dispatch step fails to advance. -/
def innerScan (fuel : Nat) (s : List Char) (inner argsEnd col line : Nat) :
    Option (List Token) :=
  match fuel with
  | 0 => none
  | fuel + 1 =>
    if inner ≤ argsEnd then
      match scanForTokens fuel s inner col line with
      | none => none
      | some (toks, inner2, col2) =>
        match innerScan fuel s inner2 argsEnd col2 line with
        | none => none
        | some rest => some (toks ++ rest)
    else some []
termination_by structural fuel

end

/-- Outcome of `lexFile`'s main loop. -/
inductive LexResult where
  | ok (toks : List Token) (line col : Nat)
  | untermComment (toks : List Token)
deriving DecidableEq, Repr

/-- The `while (*bp)` main loop of `lexFile`: whitespace, `//` comments,
block comments (with the unterminated-comment early return), the `/` and `/=`
operators, and the dispatch into `scanForTokens`.  `acc` holds the token
buffer contents so far.  Note the block-comment arm reports the fatal error
only when the NUL sits immediately after `/*`; otherwise the loop in
`blockSkip` stops at the last character and the unconditional `bp += 2` steps
past the terminator. -/
def lexLoop (fuel : Nat) (s : List Char) (i col line : Nat) (acc : List Token) :
    Option LexResult :=
  match fuel with
  | 0 => none
  | fuel + 1 =>
    if peek s i = nul then some (.ok acc line col)
    else if peek s i = ' ' ∨ peek s i = '\t' ∨ peek s i = '\n' then
      if peek s i = '\n' then lexLoop fuel s (i + 1) 0 (line + 1) acc
      else lexLoop fuel s (i + 1) (col + 1) line acc
    else if peek s i = '/' then
      if peek s (i + 1) ≠ nul ∧ peek s (i + 1) = '/' then
        match lineSkip fuel s i col with
        | none => none
        | some (j, c) => lexLoop fuel s j c line acc
      else if peek s (i + 1) ≠ nul ∧ peek s (i + 1) = '*' then
        if peek s (i + 2) = nul then some (.untermComment acc)
        else
          match blockSkip fuel s (i + 2) (col + 2) line with
          | none => none
          | some (j, c, ln) =>
            if peek s j ≠ nul then lexLoop fuel s (j + 2) (c + 2) ln acc
            else lexLoop fuel s j c ln acc
      else
        if peek s (i + 1) ≠ nul ∧ peek s (i + 1) = '=' then
          let tok : Token :=
            { type := .OPERATOR, line := line, col := col, lexeme := some i, length := 2 }
          lexLoop fuel s (i + 2) (col + 2) line (acc ++ [tok])
        else
          let tok : Token :=
            { type := .OPERATOR, line := line, col := col, lexeme := some i, length := 1 }
          lexLoop fuel s (i + 1) (col + 1) line (acc ++ [tok])
    else
      match scanForTokens fuel s i col line with
      | none => none
      | some (toks, j, c) => lexLoop fuel s j c line (acc ++ toks)

/-- `struct TokenBuffer`.  `buf = none` models a NULL token array.  Capacity
doubling inside `emitToken` (with `exit(1)` on realloc failure) is not
observable at the list level, so `capacity` keeps the 128 that `lexFile`
sets. -/
structure TokenBuffer where
  buf : Option (List Token)
  count : Nat
  capacity : Nat
  src : Option (List Char)
deriving DecidableEq, Repr

/-- Environment of one `lexFile` call: whether `fopen` succeeds, the size
`ftell` reports, whether the two `malloc`s succeed, and the file bytes that
`fread` delivers. -/
structure LexEnv where
  openOk : Bool
  fileSize : Int
  allocBufOk : Bool
  allocTbOk : Bool
  contents : List Char
deriving DecidableEq, Repr

/-- `lexFile`: the early-return error paths, then the main loop, then the
single END_OF_FILE token.  On the unterminated-comment path the C code frees
the source allocation but returns `tb` as it stands: the token buffer keeps
the tokens emitted so far and `tb.src` still holds the (now dangling)
pointer, so both fields remain set. -/
def lexFile (fuel : Nat) (env : LexEnv) (tbPrev : TokenBuffer) : Option TokenBuffer :=
  if env.openOk = false then some tbPrev
  else if env.fileSize ≤ 0 then
    some { tbPrev with buf := none, src := none }
  else if env.allocBufOk = false then
    some { tbPrev with buf := none, src := none, capacity := 128 }
  else if env.allocTbOk = false then
    some { tbPrev with buf := none, src := none, capacity := 128 }
  else
    let s := env.contents.take env.fileSize.toNat
    match lexLoop fuel s 0 0 1 [] with
    | none => none
    | some (.untermComment toks) =>
      some { buf := some toks, count := toks.length, capacity := 128, src := some s }
    | some (.ok toks line col) =>
      let eofTok : Token :=
        { type := .END_OF_FILE, line := line, col := col, val := 0, lexeme := none,
          length := 0 }
      let toks2 := toks ++ [eofTok]
      some { buf := some toks2, count := toks2.length, capacity := 128, src := some s }

/-!
Theorems.  One main theorem per claim, with witnesses and counterexamples
where the claim's status calls for them.
-/

/-- C1: refuted by the code.  On the one-byte buffer `"."` — a lone dot, the
single `validSingleOps` member missing from `scanOpDelim`'s switch — one call
of the dispatch loop at a non-terminator position advances the cursor by zero
characters and appends a token (the EMPTY sentinel) instead of skipping
silently: the emission guard compares against END_OF_FILE rather than EMPTY.
Consequently the main scan loop of `lexFile` never terminates on that buffer:
the model reports a hit iteration bound at every fuel. -/
theorem C1_dispatch_stuck_on_dot :
    (∀ fuel, scanForTokens (fuel + 1) ['.'] 0 0 1 =
      some ([{ val := 0, type := TokenType.EMPTY, lexeme := none, line := 1, col := 0, length := 0 }], 0, 0)) ∧
    (∀ fuel acc, lexLoop fuel ['.'] 0 0 1 acc = none) := by
  constructor
  · intro fuel
    rfl
  · intro fuel
    induction fuel with
    | zero => intro acc; rfl
    | succ n ih =>
      intro acc
      cases n with
      | zero => rfl
      | succ m =>
        have hstep : lexLoop (m + 1 + 1) ['.'] 0 0 1 acc =
            lexLoop (m + 1) ['.'] 0 0 1
              (acc ++ [{ val := 0, type := TokenType.EMPTY, lexeme := none, line := 1, col := 0, length := 0 }]) := rfl
        rw [hstep]
        exact ih _

/-- C2: refuted by the code.  Dispatching on the buffer `"."` appends exactly
one token to the output sequence, and its kind is the EMPTY sentinel: the
operator branch of `scanForTokens` emits whatever `scanOpDelim` returned
unless it equals END_OF_FILE, so the default-case EMPTY token reaches the
buffer. -/
theorem C2_empty_sentinel_appended :
    (scanForTokens 1 ['.'] 0 0 1).map (fun r => r.1.map Token.type) =
      some [TokenType.EMPTY] := rfl

/-- C3: refuted by the code.  On the file contents `"/*x"` the block-comment
opener is never matched by `*/`, yet the scan does not report the fatal
error: the skip loop stops one character early, the unconditional `bp += 2`
steps past the terminator, and `lexFile` returns a completed token sequence
holding the single END_OF_FILE token.  The error path is taken only when the
buffer ends immediately after `/*`, as the second conjunct shows for the
contents `"/*"`. -/
theorem C3_unterminated_comment_not_fatal :
    lexFile 20 ⟨true, 3, true, true, "/*x".toList⟩ ⟨none, 0, 0, none⟩ =
      some { buf := some [{ val := 0, type := TokenType.END_OF_FILE, lexeme := none, line := 1, col := 4, length := 0 }], count := 1, capacity := 128, src := some "/*x".toList } ∧
    lexFile 20 ⟨true, 2, true, true, "/*".toList⟩ ⟨none, 0, 0, none⟩ =
      some { buf := some [], count := 0, capacity := 128, src := some "/*".toList } :=
  ⟨rfl, rfl⟩

/-- C4, counterexample: the unterminated-block-comment path is a fatal scan
error, yet `lexFile` on the contents `"x /*"` returns the token buffer still
holding the IDENTIFIER token emitted for `x` (a partially filled sequence,
with no END_OF_FILE) and the `src` field still set — neither buffer is
unset. -/
theorem C4_counterexample :
    (lexFile 20 ⟨true, 4, true, true, "x /*".toList⟩ ⟨none, 0, 0, none⟩).map
      (fun r => (r.buf.map (List.map Token.type), r.src.isSome, r.count)) =
      some (some [TokenType.IDENTIFIER], true, 1) := rfl

/-- C4, amended: only the zero-or-negative-size and the two
allocation-failure paths return the sentinel with both buffers explicitly
unset; the file-open-failure path returns the global buffer unchanged
(without unsetting anything), and the unterminated-comment path returns the
token buffer as filled so far with the source field still set. -/
theorem C4_amended_sentinel_paths :
    (∀ fuel env tb0, env.openOk = true →
      env.fileSize ≤ 0 ∨ env.allocBufOk = false ∨ env.allocTbOk = false →
      (lexFile fuel env tb0).map (fun r => (r.buf, r.src)) = some (none, none)) ∧
    (∀ fuel env tb0, env.openOk = false → lexFile fuel env tb0 = some tb0) ∧
    (lexFile 20 ⟨true, 4, true, true, "x /*".toList⟩ ⟨none, 0, 0, none⟩).map
      (fun r => (r.buf.isSome, r.src.isSome, r.count)) = some (true, true, 1) := by
  refine ⟨?_, ?_, rfl⟩
  · intro fuel env tb0 hopen h
    simp only [lexFile, hopen, Bool.true_eq_false, if_false]
    split_ifs with h1 h2 h3
    · simp
    · simp
    · simp
    · rcases h with h | h | h
      · exact absurd h h1
      · exact absurd h h2
      · exact absurd h h3
  · intro fuel env tb0 hopen
    simp [lexFile, hopen]

/-- C4, witness for the amended theorem: a zero-size file with a successful
open returns the sentinel with both buffers unset. -/
theorem C4_witness :
    (lexFile 5 ⟨true, 0, true, true, []⟩ ⟨none, 0, 0, none⟩).map
      (fun r => (r.buf, r.src)) = some (none, none) :=
  C4_amended_sentinel_paths.1 5 ⟨true, 0, true, true, []⟩ ⟨none, 0, 0, none⟩ rfl
    (Or.inl (by norm_num))

/-- One wrap per accumulation step is the same as wrapping the exact
accumulation: the inner wrap is absorbed modulo 2^32. -/
theorem wrap32_mul_add (a d : Int) : wrap32 (wrap32 a * 10 + d) = wrap32 (a * 10 + d) := by
  unfold wrap32
  omega

theorem accumDigits_eq_wrap (cs : List Char) :
    ∀ a, accumDigits cs (wrap32 a) = wrap32 (base10From a cs) := by
  induction cs with
  | nil => intro a; rfl
  | cons c rest ih =>
    intro a
    show accumDigits rest (wrap32 (wrap32 a * 10 + ((c.toNat : Int) - 48))) = _
    rw [wrap32_mul_add]
    exact ih (a * 10 + ((c.toNat : Int) - 48))

theorem accumDigits_zero (cs : List Char) :
    accumDigits cs 0 = wrap32 (base10From 0 cs) := by
  have h0 : wrap32 0 = 0 := by decide
  calc accumDigits cs 0 = accumDigits cs (wrap32 0) := by rw [h0]
    _ = wrap32 (base10From 0 cs) := accumDigits_eq_wrap cs 0

theorem base10From_nonneg (cs : List Char) (hd : ∀ c ∈ cs, isDigitC c = true) :
    ∀ a : Int, 0 ≤ a → 0 ≤ base10From a cs := by
  induction cs with
  | nil => intro a ha; exact ha
  | cons c rest ih =>
    intro a ha
    show 0 ≤ base10From (a * 10 + ((c.toNat : Int) - 48)) rest
    have hc : isDigitC c = true := hd c (List.mem_cons_self c rest)
    have h48 : 48 ≤ c.toNat := by
      simp only [isDigitC, Bool.and_eq_true, decide_eq_true_eq] at hc
      exact hc.1
    refine ih (fun x hx => hd x (List.mem_cons_of_mem c hx)) _ ?_
    have : (48 : Int) ≤ (c.toNat : Int) := by exact_mod_cast h48
    omega

theorem wrap32_of_small (v : Int) (h0 : 0 ≤ v) (h1 : v < 2 ^ 31) : wrap32 v = v := by
  unfold wrap32
  omega

theorem floatRoundInt_small (v : Int) (h0 : 0 ≤ v) (h1 : v ≤ 2 ^ 24) :
    floatRoundInt v = v := by
  unfold floatRoundInt floatRoundNat
  rw [if_pos h0]
  have hle : v.toNat ≤ 2 ^ 24 := by omega
  rw [if_pos hle]
  omega

theorem peek_of_lt {s : List Char} {i : Nat} (h : i < s.length) : peek s i = s[i] := by
  simp [peek, List.getD, List.getElem?_eq_getElem h]

theorem peek_of_ge {s : List Char} {i : Nat} (h : s.length ≤ i) : peek s i = nul := by
  simp [peek, List.getD, List.getElem?_eq_none h]

/-- On a buffer consisting solely of digit characters, the integer-literal
loop consumes everything and never hands off to the float scanner. -/
theorem intLoop_digits (s : List Char) (hd : ∀ c ∈ s, isDigitC c = true) :
    ∀ fuel i col, i ≤ s.length → s.length - i < fuel →
      intLoop fuel s i col = some (false, s.length, col + (s.length - i)) := by
  intro fuel
  induction fuel with
  | zero => intro i col hle hf; omega
  | succ n ih =>
    intro i col hle hf
    by_cases hi : i < s.length
    · have hdig : isDigitC (peek s i) = true := by
        rw [peek_of_lt hi]
        exact hd _ (s.getElem_mem hi)
      rw [intLoop, if_pos hdig, ih (i + 1) (col + 1) (by omega) (by omega)]
      have : col + 1 + (s.length - (i + 1)) = col + (s.length - i) := by omega
      rw [this]
    · have hie : i = s.length := by omega
      subst hie
      have hp : peek s s.length = nul := peek_of_ge (le_refl _)
      rw [intLoop, hp]
      rw [if_neg (by decide : ¬(isDigitC nul = true)), if_neg (by decide : ¬(nul = '.'))]
      simp

/-- C5, counterexample: on the literal `16777217` (2^24 + 1) the token's
stored value is 16777216, although the base-10 interpretation — which the
32-bit wrap leaves untouched — is 16777217: the cast through `float` loses
precision beyond the wrap. -/
theorem C5_counterexample :
    (scanIntLiteral 20 "16777217".toList 0 0 1).map (fun r => r.1.val) = some 16777216 ∧
    base10From 0 "16777217".toList = 16777217 ∧
    wrap32 16777217 = 16777217 ∧ (16777216 : Int) ≠ 16777217 := by
  refine ⟨rfl, by decide, by decide, by norm_num⟩

/-- C5, amended: for every nonempty all-digit literal, the emitted IntLiteral
token's stored value is the base-10 interpretation accumulated left-to-right
with 32-bit wrap and then rounded through the token's `float` intermediate;
for values up to 2^24 that store is exact, beyond it the float rounding can
lose further precision. -/
theorem C5_amended_int_value (cs : List Char) (fuel : Nat) (hne : cs ≠ [])
    (hd : ∀ c ∈ cs, isDigitC c = true) (hf : cs.length < fuel) :
    scanIntLiteral fuel cs 0 0 1 =
      some ({ val := floatRoundInt (wrap32 (base10From 0 cs)), type := TokenType.INT_LITERAL,
              lexeme := some 0, line := 1, col := 0, length := cs.length },
        cs.length, cs.length) ∧
    (base10From 0 cs ≤ 2 ^ 24 →
      floatRoundInt (wrap32 (base10From 0 cs)) = base10From 0 cs) := by
  constructor
  · have hloop := intLoop_digits cs hd fuel 0 0 (by omega) (by omega)
    have hlen : (0 : Nat) ≠ cs.length := by
      intro h
      exact hne (List.eq_nil_of_length_eq_zero h.symm)
    simp only [scanIntLiteral, hloop, if_pos hlen]
    have hslice : slice cs 0 cs.length = cs := by
      simp [slice]
    rw [hslice, accumDigits_zero]
    simp
  · intro hv
    have hnn : 0 ≤ base10From 0 cs := base10From_nonneg cs hd 0 (le_refl 0)
    rw [wrap32_of_small _ hnn (lt_of_le_of_lt hv (by norm_num))]
    exact floatRoundInt_small _ hnn hv

/-- C5, witness: the amended theorem applied to the literal `7`. -/
theorem C5_witness :
    scanIntLiteral 5 ['7'] 0 0 1 =
      some ({ val := floatRoundInt (wrap32 (base10From 0 ['7'])), type := TokenType.INT_LITERAL,
              lexeme := some 0, line := 1, col := 0, length := 1 }, 1, 1) ∧
    (base10From 0 ['7'] ≤ 2 ^ 24 →
      floatRoundInt (wrap32 (base10From 0 ['7'])) = base10From 0 ['7']) :=
  C5_amended_int_value ['7'] 5 (by decide) (by decide) (by decide)

/-- C6: refuted by the code.  Scanning the float literal `5.5` produces a
FloatLiteral token whose stored numeric value is 5, not the value 11/2 that
a standard string-to-float conversion of the lexeme yields (and which is
exactly float-representable): the token's single numeric field is declared
`int val`, so the assignment `.val = tokenValue` truncates the float. -/
theorem C6_float_value_truncated :
    (scanForTokens 20 "5.5".toList 0 0 1).map
      (fun r => (r.1.map (fun t => (t.type, t.val, t.length)), r.2.1)) =
      some ([(TokenType.FLOAT_LITERAL, 5, 3)], 3) ∧
    strtofQ "5.5".toList = 11 / 2 ∧ ((5 : ℚ) ≠ 11 / 2) := by
  refine ⟨rfl, ?_, by norm_num⟩
  have h : strtofParts "5.5".toList = (55, 1) := rfl
  rw [strtofQ, h]
  norm_num

/-- C7: confirmed.  At every buffer position handled by the operator arm of
`scanOpDelim`, if the three characters at the cursor form a valid 3-character
operator the scanner emits a length-3 OPERATOR token and advances by 3; and
if they do not but the two characters at the cursor form a valid 2-character
operator, it emits a length-2 OPERATOR token and advances by 2 — so a longer
valid match is never split into a shorter operator plus a remainder. -/
theorem C7_longest_match (s : List Char) (i col line : Nat) :
    (validTripleOps.contains [peek s i, peek s (i + 1), peek s (i + 2)] = true →
      (scanOpDelim s i col line).1.type = TokenType.OPERATOR ∧
      (scanOpDelim s i col line).1.length = 3 ∧ (scanOpDelim s i col line).2.1 = i + 3) ∧
    (validTripleOps.contains [peek s i, peek s (i + 1), peek s (i + 2)] = false →
      validDoubleOps.contains [peek s i, peek s (i + 1)] = true →
      (scanOpDelim s i col line).1.type = TokenType.OPERATOR ∧
      (scanOpDelim s i col line).1.length = 2 ∧ (scanOpDelim s i col line).2.1 = i + 2) := by
  constructor
  · intro h
    have hmem : [peek s i, peek s (i + 1), peek s (i + 2)] ∈ validTripleOps := by simpa using h
    simp only [validTripleOps, List.mem_cons, List.mem_singleton, List.not_mem_nil,
      or_false] at hmem
    rcases hmem with hm | hm <;>
    · simp only [List.cons.injEq, and_true] at hm
      obtain ⟨e1, e2, e3⟩ := hm
      unfold scanOpDelim
      rw [e1, e2, e3]
      rw [if_pos (by decide), if_pos (by decide)]
      exact ⟨rfl, rfl, rfl⟩
  · intro hneg h
    have hnm : [peek s i, peek s (i + 1), peek s (i + 2)] ∉ validTripleOps := by
      simpa using hneg
    have hmem : [peek s i, peek s (i + 1)] ∈ validDoubleOps := by simpa using h
    simp only [validDoubleOps, List.mem_cons, List.mem_singleton, List.not_mem_nil,
      or_false] at hmem
    rcases hmem with hm | hm | hm | hm | hm | hm | hm | hm | hm | hm | hm | hm | hm | hm | hm | hm | hm | hm <;>
    · simp only [List.cons.injEq, and_true] at hm
      obtain ⟨e1, e2⟩ := hm
      rw [e1, e2] at hnm
      unfold scanOpDelim
      rw [e1, e2]
      rw [if_pos (by decide), if_neg (fun hc => hnm (by simpa using hc.2.2.2)),
        if_pos (by decide)]
      exact ⟨rfl, rfl, rfl⟩

/-- C7, witness: the longest-match theorem applied to `<<=` (3-character
match) and to `<<` at the end of the buffer (2-character match). -/
theorem C7_witness :
    ((scanOpDelim "<<=".toList 0 0 1).1.type = TokenType.OPERATOR ∧
      (scanOpDelim "<<=".toList 0 0 1).1.length = 3 ∧
      (scanOpDelim "<<=".toList 0 0 1).2.1 = 0 + 3) ∧
    ((scanOpDelim "<<".toList 0 0 1).1.type = TokenType.OPERATOR ∧
      (scanOpDelim "<<".toList 0 0 1).1.length = 2 ∧
      (scanOpDelim "<<".toList 0 0 1).2.1 = 0 + 2) :=
  ⟨(C7_longest_match "<<=".toList 0 0 1).1 (by decide),
   (C7_longest_match "<<".toList 0 0 1).2 (by decide) (by decide)⟩

/-- C8: confirmed.  While the function-argument scan is inside an unescaped
string or char literal run — any flag state with `isString` or `isChar` set —
a `(` or `)` at the cursor leaves the nesting depth unchanged (the loop
merely advances, with both flags as they were).  On the concrete input
`f("a)b")` the scan emits the opening-paren DELIMITER, one STR_LITERAL
sub-token for the whole `"a)b"`, and a FunctionForm token spanning the full
8 characters; on `f(')')` it likewise emits the DELIMITER, one CHAR_LITERAL
sub-token for `')'`, and a FunctionForm token spanning the full 6 characters
— in neither case does the quoted `)` close the argument list early. -/
theorem C8_literal_aware_balancing :
    (∀ fuel s i col depth isStr isChr, isStr = true ∨ isChr = true →
      peek s i = '(' ∨ peek s i = ')' →
      funLoop (fuel + 1) s i col depth isStr isChr =
        funLoop fuel s (i + 1) (col + 1) depth isStr isChr) ∧
    (scanForTokens 30 "f(\"a)b\")".toList 0 0 1).map
      (fun r => (r.1.map (fun t => (t.type, t.lexeme, t.length)), r.2.1)) =
      some ([(TokenType.DELIMITER, some 1, 1), (TokenType.STR_LITERAL, some 2, 5),
             (TokenType.FUNCTION, some 0, 8)], 8) ∧
    (scanForTokens 30 "f(')')".toList 0 0 1).map
      (fun r => (r.1.map (fun t => (t.type, t.lexeme, t.length)), r.2.1)) =
      some ([(TokenType.DELIMITER, some 1, 1), (TokenType.CHAR_LITERAL, some 2, 3),
             (TokenType.FUNCTION, some 0, 6)], 6) := by
  refine ⟨?_, rfl, rfl⟩
  intro fuel s i col depth isStr isChr hlit hp
  rcases hp with h | h <;> rcases hlit with hl | hl <;> subst hl <;>
    simp [funLoop, h,
      (by decide : ¬(('(' : Char) = '"')), (by decide : ¬(('(' : Char) = '\'')),
      (by decide : ¬(('(' : Char) = nul)),
      (by decide : ¬((')' : Char) = '"')), (by decide : ¬((')' : Char) = '\'')),
      (by decide : ¬((')' : Char) = nul))]

/-- C8, witness: one balancing-loop step over a `)` inside a string run and
one over a `(` inside a char run, each leaving the depth argument and both
flags untouched. -/
theorem C8_witness :
    funLoop 3 [')'] 0 0 5 true false = funLoop 2 [')'] 1 1 5 true false ∧
    funLoop 3 ['('] 0 0 5 false true = funLoop 2 ['('] 1 1 5 false true :=
  ⟨C8_literal_aware_balancing.1 2 [')'] 0 0 5 true false (Or.inl rfl) (Or.inr rfl),
   C8_literal_aware_balancing.1 2 ['('] 0 0 5 false true (Or.inr rfl) (Or.inl rfl)⟩

/-- C9, counterexample: on `a[1] ;` the ArrayForm token's span includes the
consumed trailing space — its length is 5 (`a[1] `), not the 4 the claim's
"span ends before the trailing spaces" rule would give: the source computes
`end = *bpPtr` only after the space-skipping loop has run. -/
theorem C9_counterexample :
    scanForTokens 30 "a[1] ;".toList 0 0 1 =
      some ([{ val := 0, type := TokenType.ARRAY, lexeme := some 0, line := 1, col := 0, length := 5 }], 5, 5) ∧
    (5 : Nat) ≠ 4 := ⟨rfl, by norm_num⟩

/-- C9, amended: every ArrayForm token `scanArray` returns spans from the
identifier's first character through the final cursor position — the last
consumed bracket group plus any consumed trailing spaces (the span length is
computed from the position after space-skipping); a multi-dimensional
subscript still yields exactly one such token, as the `arr[2][3]` scenario in
the second conjunct shows. -/
theorem C9_amended_array_span :
    (∀ fuel s i start col startCol line tok j c,
      scanArray fuel s i start col startCol line = some (tok, j, c) →
      tok.type = TokenType.ARRAY →
      tok.lexeme = some start ∧ tok.col = startCol ∧ tok.line = line ∧
        tok.length = j - start) ∧
    scanForTokens 30 "arr[2][3]".toList 0 0 1 =
      some ([{ val := 0, type := TokenType.ARRAY, lexeme := some 0, line := 1, col := 0, length := 9 }], 9, 9) := by
  constructor
  · intro fuel
    induction fuel with
    | zero =>
      intro s i start col startCol line tok j c h htype
      simp [scanArray] at h
    | succ n ih =>
      intro s i start col startCol line tok j c h htype
      rw [scanArray] at h
      cases harr : arrLoop n s (i + 1) (col + 1) 1 with
      | none => rw [harr] at h; simp at h
      | some r =>
        obtain ⟨b, j0, c0⟩ := r
        rw [harr] at h
        cases b
        · simp at h
          obtain ⟨htok, hj, hc⟩ := h
          rw [← htok] at htype
          simp at htype
        · dsimp only [] at h
          cases hsk : skipSpaces n s j0 c0 with
          | none => rw [hsk] at h; simp at h
          | some p =>
            obtain ⟨j2, c2⟩ := p
            rw [hsk] at h
            dsimp only [] at h
            by_cases hne : start ≠ j2
            · rw [if_pos hne] at h
              by_cases hbr : peek s j2 = '['
              · rw [if_pos hbr] at h
                exact ih s j2 start c2 startCol line tok j c h htype
              · rw [if_neg hbr] at h
                simp at h
                obtain ⟨htok, hj, hc⟩ := h
                subst hj
                rw [← htok]
                exact ⟨rfl, rfl, rfl, rfl⟩
            · rw [if_neg hne] at h
              simp at h
              obtain ⟨htok, hj, hc⟩ := h
              rw [← htok] at htype
              simp at htype
  · rfl

/-- The ArrayForm token that scanning `a[1]` produces, used to witness the
amended span theorem. -/
def c9SampleTok : Token :=
  { val := 0, type := TokenType.ARRAY, lexeme := some 0, line := 1, col := 0, length := 4 }

/-- C9, witness: the amended span theorem applied to the concrete run of
`scanArray` on `a[1]` (cursor on the bracket, identifier start 0). -/
theorem C9_witness :
    c9SampleTok.lexeme = some 0 ∧ c9SampleTok.col = 0 ∧ c9SampleTok.line = 1 ∧
      c9SampleTok.length = 4 - 0 :=
  C9_amended_array_span.1 10 "a[1]".toList 1 0 1 0 1 c9SampleTok 4 4 rfl rfl

/-- C10: refuted by the code.  When a backslash escape is the final character
before the end of the buffer, the literal scanners advance the cursor two
positions at once, skipping over the terminating NUL: on the two-byte
buffers `"` `\` and `'` `\` the final cursor is 3, one past the NUL at
offset 2 (in C, a read beyond the allocation). -/
theorem C10_escape_steps_past_nul :
    scanStrLiteral 5 ['"', '\\'] 0 0 1 =
      some ({ val := 0, type := TokenType.EMPTY, lexeme := none, line := 1, col := 0, length := 0 }, 3, 3) ∧
    scanCharLiteral 5 ['\'', '\\'] 0 0 1 =
      some ({ val := 0, type := TokenType.EMPTY, lexeme := none, line := 1, col := 0, length := 0 }, 3, 3) ∧
    (['"', '\\'] : List Char).length = 2 ∧ (['\'', '\\'] : List Char).length = 2 :=
  ⟨rfl, rfl, rfl, rfl⟩

end SC
